import Mathlib

/-!
Shallow embedding of the geotechnical calculation engine of
`src/foundation_app.py` (pile foundation designer), and proofs of the
spec's claims about it.

Numeric model: Python floats are idealised as exact rationals (`ℚ`).
`round(x, 2)` is Python 3 rounding: nearest multiple of 1/100, ties to
even. `int(x)` truncates toward zero. Division by zero and indexing an
empty list raise exceptions, modelled by `Except PyError`.
-/

namespace FoundationApp

/-- Exceptions a core function can raise. `invalidInput` is the error kind
the spec's contract names; the code itself never raises it, which several
claims are about. -/
inductive PyError where
  | indexError
  | zeroDivisionError
  | invalidInput
  deriving DecidableEq, Repr

/-- One soil layer, as the dicts `{"cohesion": c, "thickness": t}` built in
the app (the `type` string plays no role in calculation). -/
structure SoilLayer where
  cohesion : ℚ
  thickness : ℚ
  deriving DecidableEq, Repr

/-- The literal `3.14` used throughout the source in place of π. -/
def piApprox : ℚ := 314 / 100

/-- Python 3 `round` to an integer: nearest, ties to even. -/
def pyRound (x : ℚ) : ℤ :=
  if x - ⌊x⌋ < 1 / 2 then ⌊x⌋
  else if 1 / 2 < x - ⌊x⌋ then ⌊x⌋ + 1
  else if ⌊x⌋ % 2 = 0 then ⌊x⌋ else ⌊x⌋ + 1

/-- Python `round(x, 2)`. -/
def round2 (x : ℚ) : ℚ := (pyRound (100 * x) : ℚ) / 100

/-- Python `int()` on a real value: truncation toward zero. -/
def pyTrunc (x : ℚ) : ℤ := if 0 ≤ x then ⌊x⌋ else ⌈x⌉

/-- The tuple returned by `calculate_capacity`, in source order:
`allowable, round(length, 2), perimeter, base_area, skin, end, ultimate`
(`end` is a reserved word here, so the fifth source name becomes
`endBearing`). -/
structure CapacityResult where
  allowable : ℚ
  length : ℚ
  perimeter : ℚ
  base_area : ℚ
  skin : ℚ
  endBearing : ℚ
  ultimate : ℚ
  deriving DecidableEq, Repr

/-- `calculate_capacity(diameter, safety_factor, layers)` from
`src/foundation_app.py` lines 55-67. The sums over `layers` succeed in
Python even for an empty list, so on an empty profile the first exception
is the `IndexError` from `layers[-1]`; a zero safety factor then raises
`ZeroDivisionError` at `ultimate / safety_factor`. No other input is
rejected. -/
def calculate_capacity (diameter safety_factor : ℚ) (layers : List SoilLayer) :
    Except PyError CapacityResult :=
  let perimeter := piApprox * diameter
  let length := (layers.map (fun layer => layer.thickness)).sum
  let skin := (layers.map (fun layer => layer.cohesion * perimeter * layer.thickness)).sum
  let base_area := piApprox * (diameter / 2) ^ 2
  match layers.getLast? with
  | none => .error .indexError
  | some last =>
    let endB := last.cohesion * 9 * base_area
    let ultimate := skin + endB
    if safety_factor = 0 then .error .zeroDivisionError
    else .ok ⟨round2 (ultimate / safety_factor), round2 length, perimeter, base_area,
              skin, endB, ultimate⟩

/-- `piles_needed = int((total_load / capacity) + 1)` (line 252; the same
expression computes `piles` in `pile_design_summary`, line 109). Total on
ℚ; every claim about it assumes `capacity > 0`, where Python raises no
exception. -/
def piles_needed (total_load capacity : ℚ) : ℤ :=
  pyTrunc (total_load / capacity + 1)

/-- `math.ceil(math.sqrt n)` for a natural `n`: the least `k` with
`n ≤ k * k` (see `le_ceilSqrt_sq` and `ceilSqrt_sq` below). -/
def ceilSqrt (n : ℕ) : ℕ :=
  if Nat.sqrt n * Nat.sqrt n = n then Nat.sqrt n else Nat.sqrt n + 1

/-- `suggest_layout(n_piles)` (lines 32-35): `rows = ceil(sqrt(n))`,
`cols = ceil(n / rows)` (for `rows > 0` that ceiling of the true division
is `(n + rows - 1) / rows` in natural division); at `n = 0` the division
`n / rows` has `rows = 0` and Python raises `ZeroDivisionError`. -/
def suggest_layout (n_piles : ℕ) : Except PyError (ℕ × ℕ) :=
  let rows := ceilSqrt n_piles
  if rows = 0 then .error .zeroDivisionError
  else .ok (rows, (n_piles + rows - 1) / rows)

/-- The first argument of the `min` in `calculate_group_efficiency`:
`(rows * cols) / (1 + 0.1 * spacing_ratio)` with
`spacing_ratio = spacing / diameter`. -/
def raw_efficiency (rows cols : ℕ) (spacing diameter : ℚ) : ℚ :=
  ((rows : ℚ) * cols) / (1 + 1 / 10 * (spacing / diameter))

/-- `calculate_group_efficiency(rows, cols, spacing, diameter)`
(lines 69-71): `round(min(raw, rows * cols), 2)`. -/
def calculate_group_efficiency (rows cols : ℕ) (spacing diameter : ℚ) : ℚ :=
  round2 (min (raw_efficiency rows cols spacing diameter) ((rows : ℚ) * cols))

/-- `calculate_concrete_volume(diameter, length)` (lines 52-53). -/
def calculate_concrete_volume (diameter length : ℚ) : ℚ :=
  round2 (piApprox * (diameter / 2) ^ 2 * length)

/-- `estimate_pile_cost(volume, cost_per_m3)` (lines 78-79). -/
def estimate_pile_cost (volume cost_per_m3 : ℚ) : ℚ :=
  round2 (volume * cost_per_m3)

/-- `pile_design_summary(d, l, sf, c, load, cost_rate)` (lines 104-112):
the allowable capacity used for the pile count is the unrounded
`(skin + base) / sf`; rounding happens only in the returned tuple
`(round(allowable, 2), piles, round(volume, 2), round(total_cost, 2))`. -/
def pile_design_summary (d l sf c load cost_rate : ℚ) : ℚ × ℤ × ℚ × ℚ :=
  let perimeter := piApprox * d
  let skin := c * perimeter * l
  let base := c * 9 * (piApprox * (d / 2) ^ 2)
  let allowable := (skin + base) / sf
  let piles := pyTrunc (load / allowable + 1)
  let volume := calculate_concrete_volume d l
  let total_cost := estimate_pile_cost (volume * (piles : ℚ)) cost_rate
  (round2 allowable, piles, round2 volume, round2 total_cost)

/-! ## Helper lemmas about the rounding primitives -/

theorem le_pyRound (x : ℚ) : ⌊x⌋ ≤ pyRound x := by
  unfold pyRound
  split_ifs <;> omega

theorem pyRound_le (x : ℚ) : pyRound x ≤ ⌊x⌋ + 1 := by
  unfold pyRound
  split_ifs <;> omega

/-- Round-half-to-even is monotone. -/
theorem pyRound_mono {x y : ℚ} (h : x ≤ y) : pyRound x ≤ pyRound y := by
  have hfl : ⌊x⌋ ≤ ⌊y⌋ := Int.floor_mono h
  rcases lt_or_eq_of_le hfl with hlt | heq
  · exact le_trans (pyRound_le x) (le_trans (by omega) (le_pyRound y))
  · unfold pyRound
    rw [← heq]
    split_ifs <;> first | omega | (exfalso; linarith)

theorem pyRound_intCast (n : ℤ) : pyRound (n : ℚ) = n := by
  unfold pyRound
  rw [Int.floor_intCast]
  rw [if_pos (by norm_num)]

theorem round2_mono {x y : ℚ} (h : x ≤ y) : round2 x ≤ round2 y := by
  unfold round2
  have h1 := pyRound_mono (by linarith : 100 * x ≤ 100 * y)
  have h2 : ((pyRound (100 * x) : ℚ)) ≤ (pyRound (100 * y) : ℚ) := by exact_mod_cast h1
  linarith

theorem round2_intCast (n : ℤ) : round2 (n : ℚ) = n := by
  unfold round2
  rw [show (100 : ℚ) * n = ((100 * n : ℤ) : ℚ) by push_cast; ring, pyRound_intCast]
  push_cast
  ring

theorem round2_natCast (n : ℕ) : round2 (n : ℚ) = n := by
  have h := round2_intCast (n : ℤ)
  rw [Int.cast_natCast] at h
  rw [h]

/-- A value already rounded to 2 decimals is a fixed point of `round2`. -/
theorem round2_round2 (x : ℚ) : round2 (round2 x) = round2 x := by
  unfold round2
  rw [mul_comm, div_mul_cancel₀ _ (by norm_num : (100 : ℚ) ≠ 0)]
  congr 1
  unfold pyRound
  rw [Int.floor_intCast, if_pos (by norm_num)]

/-! ## Helper lemmas about `ceilSqrt` -/

/-- `ceilSqrt n` is an upper square root: `n ≤ ceilSqrt n * ceilSqrt n`. -/
theorem le_ceilSqrt_sq (n : ℕ) : n ≤ ceilSqrt n * ceilSqrt n := by
  unfold ceilSqrt
  split_ifs with h
  · omega
  · have h2 := Nat.lt_succ_sqrt n
    rw [Nat.succ_eq_add_one] at h2
    omega

theorem ceilSqrt_pos (n : ℕ) (hn : 0 < n) : 0 < ceilSqrt n := by
  have h := le_ceilSqrt_sq n
  by_contra hc
  simp only [not_lt, Nat.le_zero] at hc
  rw [hc] at h
  omega

/-- On perfect squares `ceilSqrt` is exact. -/
theorem ceilSqrt_sq (k : ℕ) : ceilSqrt (k * k) = k := by
  unfold ceilSqrt
  rw [Nat.sqrt_eq k]
  simp

/-! ## The claims -/

/-- C1, counterexample: on an empty soil profile `calculate_capacity` does
not fail with the explicit `InvalidInput` error; it raises exactly the
index error the claim rules out (Python's `layers[-1]`). -/
theorem C1_counterexample :
    calculate_capacity (6/10) (5/2) [] = .error .indexError ∧
    PyError.indexError ≠ PyError.invalidInput :=
  ⟨rfl, by decide⟩

/-- C1, amended: `calculate_capacity` performs no input validation. An
empty profile raises an index error (never `InvalidInput`), and every
non-empty profile with a nonzero safety factor succeeds — even with
diameter ≤ 0, safety factor < 0, or non-positive layer thicknesses. -/
theorem C1_no_validation (d sf : ℚ) (layers : List SoilLayer)
    (hne : layers ≠ []) (hsf : sf ≠ 0) :
    calculate_capacity d sf [] = .error .indexError ∧
    ∃ r, calculate_capacity d sf layers = .ok r := by
  refine ⟨rfl, ?_⟩
  simp only [calculate_capacity, List.getLast?_eq_getLast_of_ne_nil hne, if_neg hsf]
  exact ⟨_, rfl⟩

/-- C1, witness: the amended claim at diameter 0 (an input the spec calls
invalid), safety factor 5/2, and a single layer of cohesion 50 and
thickness 10. -/
theorem C1_no_validation_witness :
    calculate_capacity 0 (5/2) [] = .error .indexError ∧
    ∃ r, calculate_capacity 0 (5/2) [⟨50, 10⟩] = .ok r :=
  C1_no_validation 0 (5/2) [⟨50, 10⟩] (by simp) (by norm_num)

/-- C2, counterexample: at diameter 0.6, safety factor 2.5 and a single
layer of cohesion 50 and thickness 10, the returned base area is 0.2826,
which is not rounded to 2 decimal places. -/
theorem C2_counterexample :
    (calculate_capacity (6/10) (5/2) [⟨50, 10⟩]).map CapacityResult.base_area
      = .ok (2826/10000) ∧
    round2 (2826/10000) ≠ (2826/10000 : ℚ) := by
  constructor
  · norm_num [calculate_capacity, List.getLast?, Except.map, piApprox]
  · norm_num [round2, pyRound]

/-- C2, amended: of the magnitudes `calculate_capacity` returns, only the
allowable capacity and the total length are rounded to 2 decimal places
(they are fixed points of `round2`, the allowable capacity being the
rounding of ultimate / safety_factor); the perimeter, base area, skin
friction, end bearing and ultimate capacity are returned as the unrounded
formula values. -/
theorem C2_rounding_only_allowable_and_length (d sf : ℚ) (layers : List SoilLayer)
    (hne : layers ≠ []) (hsf : sf ≠ 0) :
    ∃ r, calculate_capacity d sf layers = .ok r ∧
      round2 r.allowable = r.allowable ∧ round2 r.length = r.length ∧
      r.allowable = round2 (r.ultimate / sf) ∧
      r.perimeter = piApprox * d ∧ r.base_area = piApprox * (d / 2) ^ 2 ∧
      r.ultimate = r.skin + r.endBearing := by
  simp only [calculate_capacity, List.getLast?_eq_getLast_of_ne_nil hne, if_neg hsf]
  exact ⟨_, rfl, round2_round2 _, round2_round2 _, rfl, rfl, rfl, rfl⟩

/-- C2, witness: the amended claim at diameter 0.6, safety factor 2.5, and
a single layer of cohesion 50 and thickness 10. -/
theorem C2_rounding_witness :
    ∃ r, calculate_capacity (6/10) (5/2) [⟨50, 10⟩] = .ok r ∧
      round2 r.allowable = r.allowable ∧ round2 r.length = r.length ∧
      r.allowable = round2 (r.ultimate / (5/2)) ∧
      r.perimeter = piApprox * (6/10) ∧ r.base_area = piApprox * ((6/10) / 2) ^ 2 ∧
      r.ultimate = r.skin + r.endBearing :=
  C2_rounding_only_allowable_and_length (6/10) (5/2) [⟨50, 10⟩] (by simp) (by norm_num)

/-- C3: for positive load and capacity the required pile count is
`⌊load / capacity⌋ + 1`; in particular an exact division (quotient 5)
yields 6, one more than the mathematical ceiling. -/
theorem C3_pile_count_formula (load cap : ℚ) (hl : 0 < load) (hc : 0 < cap) :
    piles_needed load cap = ⌊load / cap⌋ + 1 ∧
    (load / cap = 5 → piles_needed load cap = 6) := by
  have hx : 0 < load / cap := div_pos hl hc
  have h1 : piles_needed load cap = ⌊load / cap⌋ + 1 := by
    unfold piles_needed pyTrunc
    rw [if_pos (by linarith), Int.floor_add_one]
  refine ⟨h1, fun h5 => ?_⟩
  rw [h1, h5]
  norm_num

/-- C3, witness: load 1000 and capacity 200 divide exactly to 5 and the
pile count is 6. -/
theorem C3_pile_count_formula_witness :
    piles_needed 1000 200 = ⌊(1000 : ℚ) / 200⌋ + 1 ∧
    ((1000 : ℚ) / 200 = 5 → piles_needed 1000 200 = 6) :=
  C3_pile_count_formula 1000 200 (by norm_num) (by norm_num)

/-- C4: for fixed positive load the pile count is non-increasing in the
allowable capacity, and the piles bought always carry the load:
`piles * capacity ≥ load`. -/
theorem C4_pile_count_monotone_and_sufficient (load c1 c2 : ℚ)
    (hl : 0 < load) (h1 : 0 < c1) (h12 : c1 ≤ c2) :
    piles_needed load c2 ≤ piles_needed load c1 ∧
    load ≤ (piles_needed load c1 : ℚ) * c1 := by
  have h2 : 0 < c2 := lt_of_lt_of_le h1 h12
  have hx : 0 < load / c1 := div_pos hl h1
  constructor
  · unfold piles_needed pyTrunc
    have hd : load / c2 ≤ load / c1 := (div_le_div_iff_of_pos_left hl h2 h1).mpr h12
    rw [if_pos (by positivity : (0:ℚ) ≤ load / c2 + 1),
        if_pos (by positivity : (0:ℚ) ≤ load / c1 + 1)]
    exact Int.floor_mono (by linarith)
  · have he : piles_needed load c1 = ⌊load / c1⌋ + 1 := by
      unfold piles_needed pyTrunc
      rw [if_pos (by linarith), Int.floor_add_one]
    rw [he]
    have hlt : load / c1 < (⌊load / c1⌋ : ℚ) + 1 := Int.lt_floor_add_one _
    have hm : load / c1 * c1 < ((⌊load / c1⌋ : ℚ) + 1) * c1 :=
      mul_lt_mul_of_pos_right hlt h1
    rw [div_mul_cancel₀ _ (ne_of_gt h1)] at hm
    push_cast
    linarith

/-- C4, witness: load 1000 with capacities 200 ≤ 400. -/
theorem C4_pile_count_monotone_and_sufficient_witness :
    piles_needed 1000 400 ≤ piles_needed 1000 200 ∧
    (1000 : ℚ) ≤ (piles_needed 1000 200 : ℚ) * 200 :=
  C4_pile_count_monotone_and_sufficient 1000 200 400 (by norm_num) (by norm_num) (by norm_num)

/-- C5: concrete scenario — diameter 0.6, safety factor 2.5, single layer
of cohesion 50 and thickness 10 gives allowable 427.67, length 10,
perimeter 1.884, base area 0.2826, skin 942, end bearing 127.17 and
ultimate 1069.17; with total load 1000 the required pile count is 3. -/
theorem C5_concrete_scenario :
    calculate_capacity (6/10) (5/2) [⟨50, 10⟩] =
      .ok ⟨42767/100, 10, 471/250, 2826/10000, 942, 12717/100, 106917/100⟩ ∧
    piles_needed 1000 (42767/100) = 3 := by
  constructor
  · norm_num [calculate_capacity, round2, pyRound, piApprox, List.getLast?]
  · norm_num [piles_needed, pyTrunc]

/-- C6: for every positive pile count `suggest_layout` returns a grid
covering it (`rows * cols ≥ n`), and on perfect squares `n = k * k` it
returns the square `k × k` grid. -/
theorem C6_suggest_layout_covers (n : ℕ) (hn : 0 < n) :
    ∃ rows cols, suggest_layout n = .ok (rows, cols) ∧ n ≤ rows * cols ∧
      ∀ k, n = k * k → rows = k ∧ cols = k := by
  have hrows : 0 < ceilSqrt n := ceilSqrt_pos n hn
  refine ⟨ceilSqrt n, (n + ceilSqrt n - 1) / ceilSqrt n, ?_, ?_, ?_⟩
  · unfold suggest_layout
    rw [if_neg (by omega)]
  · have hd := Nat.div_add_mod (n + ceilSqrt n - 1) (ceilSqrt n)
    have hm := Nat.mod_lt (n + ceilSqrt n - 1) hrows
    omega
  · intro k hk
    subst hk
    have hke : ceilSqrt (k * k) = k := ceilSqrt_sq k
    have hk1 : 1 ≤ k := by
      by_contra hc
      simp only [not_le, Nat.lt_one_iff] at hc
      subst hc
      omega
    refine ⟨hke, ?_⟩
    rw [hke]
    have e1 : k * k + k - 1 = (k - 1) + k * k := by omega
    rw [e1, Nat.add_mul_div_left _ _ (by omega : 0 < k), Nat.div_eq_of_lt (by omega)]
    omega

/-- C6, witness: the perfect square 9 yields a covering 3 × 3 layout. -/
theorem C6_suggest_layout_covers_witness :
    ∃ rows cols, suggest_layout 9 = .ok (rows, cols) ∧ 9 ≤ rows * cols ∧
      ∀ k, 9 = k * k → rows = k ∧ cols = k :=
  C6_suggest_layout_covers 9 (by norm_num)

/-- C7, counterexample: the returned group efficiency does not strictly
decrease in the spacing ratio — for a 1 × 1 group with diameter 1, the
spacings 4 and 4.1 both round to efficiency 0.71. -/
theorem C7_counterexample :
    calculate_group_efficiency 1 1 4 1 = calculate_group_efficiency 1 1 (41/10) 1 ∧
    (4 : ℚ) / 1 < (41/10 : ℚ) / 1 := by
  constructor
  · norm_num [calculate_group_efficiency, raw_efficiency, round2, pyRound]
  · norm_num

/-- C7, amended: the unrounded efficiency strictly decreases as the
spacing ratio increases; the returned value (rounded to 2 decimals) is
monotonically non-increasing in the spacing, and never exceeds
`rows * cols`. -/
theorem C7_efficiency_monotone_and_capped (rows cols : ℕ) (hr : 1 ≤ rows) (hc : 1 ≤ cols)
    (s1 s2 d : ℚ) (hd : 0 < d) (hs1 : 0 < s1) (h12 : s1 < s2) :
    raw_efficiency rows cols s2 d < raw_efficiency rows cols s1 d ∧
    calculate_group_efficiency rows cols s2 d ≤ calculate_group_efficiency rows cols s1 d ∧
    calculate_group_efficiency rows cols s1 d ≤ (rows : ℚ) * cols := by
  have hN : (0 : ℚ) < (rows : ℚ) * cols := by
    have h1 : (1 : ℚ) ≤ (rows : ℚ) := by exact_mod_cast hr
    have h2 : (1 : ℚ) ≤ (cols : ℚ) := by exact_mod_cast hc
    nlinarith
  have hb1 : (0 : ℚ) < 1 + 1 / 10 * (s1 / d) := by
    have h := div_pos hs1 hd
    linarith
  have hbb : 1 + 1 / 10 * (s1 / d) < 1 + 1 / 10 * (s2 / d) := by
    have h : s1 / d < s2 / d := by gcongr
    linarith
  have hstrict : raw_efficiency rows cols s2 d < raw_efficiency rows cols s1 d :=
    div_lt_div_of_pos_left hN hb1 hbb
  refine ⟨hstrict, ?_, ?_⟩
  · exact round2_mono (min_le_min (le_of_lt hstrict) le_rfl)
  · have hle : min (raw_efficiency rows cols s1 d) ((rows : ℚ) * cols) ≤ ((rows : ℚ) * cols) :=
      min_le_right _ _
    calc calculate_group_efficiency rows cols s1 d
        ≤ round2 ((rows : ℚ) * cols) := round2_mono hle
      _ = (rows : ℚ) * cols := by
          rw [show ((rows : ℚ) * cols) = (((rows * cols : ℕ)) : ℚ) by push_cast; ring,
             round2_natCast]

/-- C7, witness: the amended claim for a 2 × 2 group, diameter 0.6 and
spacings 2.5 < 3. -/
theorem C7_efficiency_monotone_and_capped_witness :
    raw_efficiency 2 2 3 (6/10) < raw_efficiency 2 2 (5/2) (6/10) ∧
    calculate_group_efficiency 2 2 3 (6/10) ≤ calculate_group_efficiency 2 2 (5/2) (6/10) ∧
    calculate_group_efficiency 2 2 (5/2) (6/10) ≤ (2 : ℚ) * 2 :=
  C7_efficiency_monotone_and_capped 2 2 (by norm_num) (by norm_num)
    (5/2) 3 (6/10) (by norm_num) (by norm_num) (by norm_num)

/-- C8: in the design-comparison path at diameter 0.6, length 10, safety
factor 3.2075, cohesion 50, load 1000 and cost rate 120, the summary
returns rounded allowable capacity 333.33 with pile count 3, yet
recomputing `⌊load / rounded_allowable⌋ + 1` gives 4: the pile count was
taken from the unrounded allowable capacity, so the returned metrics are
not mutually re-derivable. -/
theorem C8_count_from_unrounded_allowable :
    (pile_design_summary (3/5) 10 (1283/400) 50 1000 120).1 = 33333/100 ∧
    (pile_design_summary (3/5) 10 (1283/400) 50 1000 120).2.1 = 3 ∧
    (pile_design_summary (3/5) 10 (1283/400) 50 1000 120).2.1 ≠
      ⌊(1000 : ℚ) / (pile_design_summary (3/5) 10 (1283/400) 50 1000 120).1⌋ + 1 := by
  norm_num [pile_design_summary, calculate_concrete_volume, estimate_pile_cost,
    round2, pyRound, pyTrunc, piApprox]

/-- C9: for positive spacing and diameter and a non-empty grid the raw
efficiency is strictly below `rows * cols`, so the `min` cap is never the
selected branch and the result is exactly the rounded raw value. -/
theorem C9_cap_branch_never_selected (rows cols : ℕ) (hr : 1 ≤ rows) (hc : 1 ≤ cols)
    (s d : ℚ) (hs : 0 < s) (hd : 0 < d) :
    raw_efficiency rows cols s d < (rows : ℚ) * cols ∧
    calculate_group_efficiency rows cols s d = round2 (raw_efficiency rows cols s d) := by
  have hN : (0 : ℚ) < (rows : ℚ) * cols := by
    have h1 : (1 : ℚ) ≤ (rows : ℚ) := by exact_mod_cast hr
    have h2 : (1 : ℚ) ≤ (cols : ℚ) := by exact_mod_cast hc
    nlinarith
  have hb : (1 : ℚ) < 1 + 1 / 10 * (s / d) := by
    have h := div_pos hs hd
    linarith
  have hraw : raw_efficiency rows cols s d < (rows : ℚ) * cols :=
    div_lt_self hN hb
  refine ⟨hraw, ?_⟩
  unfold calculate_group_efficiency
  rw [min_eq_left (le_of_lt hraw)]

/-- C9, witness: a 3 × 2 grid with spacing 2.5 and diameter 0.6. -/
theorem C9_cap_branch_never_selected_witness :
    raw_efficiency 3 2 (5/2) (6/10) < (3 : ℚ) * 2 ∧
    calculate_group_efficiency 3 2 (5/2) (6/10) = round2 (raw_efficiency 3 2 (5/2) (6/10)) :=
  C9_cap_branch_never_selected 3 2 (by norm_num) (by norm_num)
    (5/2) (6/10) (by norm_num) (by norm_num)

/-- C10: `suggest_layout 0` computes `rows = ceil(sqrt 0) = 0` and the
column division then raises a division-by-zero error — not a layout and
not an explicit `InvalidInput` failure. -/
theorem C10_layout_zero_division :
    suggest_layout 0 = .error .zeroDivisionError ∧
    PyError.zeroDivisionError ≠ PyError.invalidInput := by
  constructor
  · simp [suggest_layout, ceilSqrt, Nat.sqrt_zero]
  · decide

end FoundationApp
